import Mathlib

/-!
Verification of the kubetest2 GKE deployer's location-retry layer
(`kubetest2-gke/deployer/deployer.go`).

Go strings are embedded as `List Char` (the claims only involve ASCII text,
where Go's byte indexing coincides with character indexing). Go expressions
that can panic (out-of-bounds slice indexing and slicing with a negative
bound) are embedded as `Option`-returning functions, `none` marking the
panic. Functions returning `error` are embedded as `Option String`
(`some msg` is the error case, `none` is Go's `nil` error).
-/

set_option maxRecDepth 4000

namespace GkeDeployer

/-- Go `strings.LastIndex(s, c)` for a single-character needle: the index of
the last occurrence of `c` in `s`, or `-1` when `c` does not occur. -/
def lastIndex (s : List Char) (c : Char) : Int :=
  match s with
  | [] => -1
  | x :: xs =>
    let r := lastIndex xs c
    if 0 ≤ r then r + 1 else if x = c then 0 else -1

/--
Embedding of `locationFlag` from `deployer.go`:

```go
func locationFlag(regions, zones []string, retryCount int) string {
    if len(zones) != 0 {
        return "--zone=" + zones[retryCount]
    }
    return "--region=" + regions[retryCount]
}
```

`none` models the panic of an out-of-bounds slice index.
-/
def locationFlag (regions zones : List (List Char)) (retryCount : Nat) :
    Option (List Char) :=
  if zones.length ≠ 0 then
    (zones.get? retryCount).map (fun z => "--zone=".data ++ z)
  else
    (regions.get? retryCount).map (fun r => "--region=".data ++ r)

/--
Embedding of `regionFromLocation` from `deployer.go`:

```go
func regionFromLocation(regions, zones []string, retryCount int) string {
    if len(zones) != 0 {
        zone := zones[retryCount]
        return zone[0:strings.LastIndex(zone, "-")]
    }
    return regions[retryCount]
}
```

`zone[0:n]` is `zone.take n` when `0 ≤ n`; a negative upper bound (the
`LastIndex` miss case) panics in Go, embedded as `none`.
-/
def regionFromLocation (regions zones : List (List Char)) (retryCount : Nat) :
    Option (List Char) :=
  if zones.length ≠ 0 then
    match zones.get? retryCount with
    | none => none
    | some zone =>
      let n := lastIndex zone '-'
      if 0 ≤ n then some (zone.take n.toNat) else none
  else regions.get? retryCount

/--
Embedding of `(*Deployer).VerifyLocationFlags` from `deployer.go`. The Go
method reads only `d.Zones` and `d.Regions` and writes nothing, so it is a
pure function of those two lists; `some msg` embeds a non-nil `error`.

```go
func (d *Deployer) VerifyLocationFlags() error {
    if len(d.Zones) == 0 && len(d.Regions) == 0 {
        return fmt.Errorf("--zone or --region must be set for GKE deployment")
    } else if len(d.Zones) != 0 && len(d.Regions) != 0 {
        return fmt.Errorf("--zone and --region cannot both be set")
    }
    return nil
}
```
-/
def VerifyLocationFlags (zones regions : List (List Char)) : Option String :=
  if zones.length = 0 ∧ regions.length = 0 then
    some "--zone or --region must be set for GKE deployment"
  else if zones.length ≠ 0 ∧ regions.length ≠ 0 then
    some "--zone and --region cannot both be set"
  else
    none

theorem lastIndex_of_not_mem {s : List Char} {c : Char} (h : c ∉ s) :
    lastIndex s c = -1 := by
  induction s with
  | nil => rfl
  | cons x xs ih =>
    have hx : x ≠ c := fun hxc => h (hxc ▸ List.mem_cons_self x xs)
    have hxs : c ∉ xs := fun hm => h (List.mem_cons_of_mem x hm)
    simp [lastIndex, ih hxs, hx]

theorem lastIndex_append_cons {s : List Char} {c : Char} (p : List Char)
    (h : c ∉ s) : lastIndex (p ++ c :: s) c = (p.length : Int) := by
  induction p with
  | nil => simp [lastIndex, lastIndex_of_not_mem h]
  | cons x xs ih =>
    have hge : (0 : Int) ≤ (xs.length : Int) := Int.natCast_nonneg _
    simp only [List.cons_append, lastIndex, List.append_eq]
    rw [ih]
    simp [hge]

/-- Predicate `startsWithLit lit s`: true when the literal `lit` is a prefix of
`s` (character-by-character comparison, as a regex literal matches). -/
def startsWithLit : List Char → List Char → Bool
  | [], _ => true
  | _ :: _, [] => false
  | c :: cs, x :: xs => if x = c then startsWithLit cs xs else false

/-- Predicate `containsSub sub s`: true when `sub` occurs as a contiguous substring
of `s` (the semantics of an unanchored regex search for a literal). -/
def containsSub (sub : List Char) : List Char → Bool
  | [] => startsWithLit sub []
  | x :: xs => startsWithLit sub (x :: xs) || containsSub sub xs

/-- Consume the literal `lit` from the front of `s`, returning the
remainder, or `none` when `s` does not start with `lit`. -/
def dropLit : List Char → List Char → Option (List Char)
  | [], s => some s
  | _ :: _, [] => none
  | c :: cs, x :: xs => if x = c then dropLit cs xs else none

/-- Split `s` at its first `'/'`: the first component is the maximal
slash-free prefix (what the greedy `([^/]+)` group consumes), the second is
the rest of `s` (starting with `'/'` when one occurs). -/
def spanNonSlash : List Char → List Char × List Char
  | [] => ([], [])
  | x :: xs =>
    if x = '/' then ([], x :: xs)
    else
      let p := spanNonSlash xs
      (x :: p.1, p.2)

/-- The regex character class `[0-9a-f]` of `poolRe`. -/
def isHexDigit (c : Char) : Bool :=
  ('0' ≤ c && c ≤ '9') || ('a' ≤ c && c ≤ 'f')

/-- The regex character class `[e|3]` of `poolRe`: inside brackets the `|`
is a literal character, so the class holds `'e'`, `'|'` and `'3'`. -/
def poolPrefixClass (c : Char) : Bool :=
  c = 'e' || c = '|' || c = '3'

/-- Match the end-anchored tail `-([0-9a-f]{8})-grp$` of `poolRe` against
a 13-character list, returning the 8-hex-digit capture. -/
def matchTail13 (t : List Char) : Option (List Char) :=
  match t with
  | '-' :: h1 :: h2 :: h3 :: h4 :: h5 :: h6 :: h7 :: h8 :: '-' :: 'g' ::
      'r' :: 'p' :: [] =>
    let h := [h1, h2, h3, h4, h5, h6, h7, h8]
    if h.all isHexDigit then some h else none
  | _ => none

/-- Match the end-anchored group `(gk[e|3]-.*-([0-9a-f]{8})-grp)$` of
`poolRe` against the whole of `s`, returning `(name, hash)` =
(capture 2, capture 3). Because `$` anchors `-grp` at the end and the hash
has exactly 8 characters, the greedy `.*` necessarily stops 13 characters
before the end; `.` does not match a newline in Go. -/
def matchPoolName (s : List Char) : Option (List Char × List Char) :=
  match s with
  | 'g' :: 'k' :: c :: '-' :: rest =>
    if poolPrefixClass c then
      match matchTail13 (rest.drop (rest.length - 13)) with
      | some h =>
        if (rest.take (rest.length - 13)).all (fun ch => ch != '\n') then
          some (s, h)
        else none
      | none => none
    else none
  | _ => none

/-- Attempt `poolRe` anchored at the start of `s` (a suffix of the URL):
the literal `zones/`, the group `([^/]+)` (greedy, and since `[^/]` cannot
match `'/'` it consumes exactly the slash-free prefix), a `'/'`, the
literal `instanceGroupManagers/`, then the name group to the end of `s`.
Returns (zone, name, hash) = captures 1-3. -/
def matchPoolAt (s : List Char) : Option (List Char × List Char × List Char) :=
  match dropLit "zones/".data s with
  | none => none
  | some rest =>
    if (spanNonSlash rest).1.isEmpty then none
    else
      match dropLit ['/'] (spanNonSlash rest).2 with
      | none => none
      | some rest2 =>
        match dropLit "instanceGroupManagers/".data rest2 with
        | none => none
        | some rest3 =>
          (matchPoolName rest3).map
            (fun q => ((spanNonSlash rest).1, q.1, q.2))

/-- Embedding of `poolRe.FindStringSubmatch`: Go's leftmost match is found
by attempting the pattern anchored at each position of the subject from
left to right and keeping the first success. -/
def findPool : List Char → Option (List Char × List Char × List Char)
  | [] => matchPoolAt []
  | x :: xs =>
    match matchPoolAt (x :: xs) with
    | some t => some t
    | none => findPool xs

/-- C1: whenever the zone list is non-empty the location argument is
`--zone=` followed by the zone at the attempt index, for every region list
— in particular for empty regions — and with an empty zone list it is
`--region=` followed by the region at the attempt index, for all in-bounds
attempt indices. The two parts are quantified independently, so each is
instantiable at every input the claim covers. -/
theorem locationFlag_spec :
    (∀ (R Z : List (List Char)) (i : Nat) (hZ : i < Z.length),
      locationFlag R Z i = some ("--zone=".data ++ Z.get ⟨i, hZ⟩)) ∧
    (∀ (R : List (List Char)) (j : Nat) (hR : j < R.length),
      locationFlag R [] j = some ("--region=".data ++ R.get ⟨j, hR⟩)) := by
  constructor
  · intro R Z i hZ
    unfold locationFlag
    rw [if_pos (by omega : Z.length ≠ 0)]
    rw [List.get?_eq_some.mpr ⟨hZ, rfl⟩]
    rfl
  · intro R j hR
    unfold locationFlag
    rw [if_neg (by simp)]
    rw [List.get?_eq_some.mpr ⟨hR, rfl⟩]
    rfl

theorem locationFlag_spec_witness :
    locationFlag [] ["us-central1-a".data] 0 =
      some ("--zone=".data ++ "us-central1-a".data) ∧
    locationFlag ["us-central1".data] [] 0 =
      some ("--region=".data ++ "us-central1".data) :=
  ⟨locationFlag_spec.1 [] ["us-central1-a".data] 0 (by decide),
    locationFlag_spec.2 ["us-central1".data] 0 (by decide)⟩

/-- C2: when the zone selected at the attempt index has the form
`<region>-<suffix>` (a prefix `p`, a last hyphen, and a hyphen-free
suffix `s`), `regionFromLocation` returns exactly the prefix `p` before
the last hyphen, for every region list — in particular for the empty
regions of a valid zonal configuration — and with an empty zone list it
returns the region at the attempt index unchanged. The two parts are
quantified independently, so each is instantiable at every input the
claim covers. -/
theorem regionFromLocation_spec :
    (∀ (R Z : List (List Char)) (i : Nat) (p s : List Char),
      Z.get? i = some (p ++ '-' :: s) → '-' ∉ s →
      regionFromLocation R Z i = some p) ∧
    (∀ (R : List (List Char)) (j : Nat) (hj : j < R.length),
      regionFromLocation R [] j = some (R.get ⟨j, hj⟩)) := by
  constructor
  · intro R Z i p s hi hs
    have hlen : Z.length ≠ 0 := by
      rcases List.get?_eq_some.mp hi with ⟨h, _⟩
      omega
    simp only [regionFromLocation, if_pos hlen, hi,
      lastIndex_append_cons p hs]
    rw [if_pos (Int.natCast_nonneg _), Int.toNat_natCast, List.take_left]
  · intro R j hj
    unfold regionFromLocation
    rw [if_neg (by simp)]
    rw [List.get?_eq_some.mpr ⟨hj, rfl⟩]

theorem regionFromLocation_spec_witness :
    regionFromLocation [] ["us-central1-a".data] 0 =
      some ("us-central1".data) ∧
    regionFromLocation ["us-central1".data] [] 0 =
      some ("us-central1".data) :=
  ⟨regionFromLocation_spec.1 [] ["us-central1-a".data] 0
      "us-central1".data "a".data (by decide) (by decide),
    regionFromLocation_spec.2 ["us-central1".data] 0 (by decide)⟩

/-- C9: when the zone selected at the attempt index contains no hyphen,
`strings.LastIndex` yields `-1` and the slice `zone[0:-1]` is out of
bounds, so the embedded `regionFromLocation` returns `none` (the Go
function panics): it is well-defined only when the selected zone contains
a hyphen. -/
theorem regionFromLocation_no_hyphen (R Z : List (List Char)) (i : Nat)
    (z : List Char) (hi : Z.get? i = some z) (hz : '-' ∉ z) :
    regionFromLocation R Z i = none := by
  have hlen : Z.length ≠ 0 := by
    rcases List.get?_eq_some.mp hi with ⟨h, _⟩
    omega
  simp only [regionFromLocation, if_pos hlen, hi, lastIndex_of_not_mem hz]
  rw [if_neg (by decide)]

theorem regionFromLocation_no_hyphen_witness :
    regionFromLocation ["us-central1".data] ["uswest".data] 0 = none :=
  regionFromLocation_no_hyphen ["us-central1".data] ["uswest".data] 0
    "uswest".data (by decide) (by decide)

/-- C4: `VerifyLocationFlags` succeeds (returns Go's `nil` error, embedded
as `none`) exactly when one of the two lists is non-empty and the other is
empty; it fails both when the two lists are both empty and when they are
both non-empty. The embedded function is a pure function of the zone and
region lists alone, so no deployer state is touched. -/
theorem VerifyLocationFlags_iff (zones regions : List (List Char)) :
    VerifyLocationFlags zones regions = none ↔
      ((zones = [] ∧ regions ≠ []) ∨ (zones ≠ [] ∧ regions = [])) := by
  unfold VerifyLocationFlags
  rcases zones with _ | ⟨z, zs⟩ <;> rcases regions with _ | ⟨r, rs⟩ <;> simp

theorem startsWithLit_iff (lit : List Char) :
    ∀ s, startsWithLit lit s = true ↔ ∃ r, s = lit ++ r := by
  induction lit with
  | nil =>
    intro s
    simp [startsWithLit]
  | cons c cs ih =>
    intro s
    cases s with
    | nil => simp [startsWithLit]
    | cons x xs =>
      by_cases hx : x = c
      · subst hx
        simp [startsWithLit, ih xs]
      · rw [startsWithLit, if_neg hx]
        constructor
        · intro hfalse
          exact absurd hfalse (by simp)
        · rintro ⟨r, hr⟩
          rw [List.cons_append] at hr
          injection hr with h1 _
          exact (hx h1).elim

theorem containsSub_iff (sub : List Char) :
    ∀ s, containsSub sub s = true ↔ ∃ l r, s = l ++ sub ++ r := by
  intro s
  induction s with
  | nil =>
    rw [containsSub, startsWithLit_iff]
    constructor
    · rintro ⟨r, hr⟩
      exact ⟨[], r, hr⟩
    · rintro ⟨l, r, hlr⟩
      have h0 := congrArg List.length hlr
      simp [List.length_append] at h0
      have hsub : sub = [] := List.length_eq_zero.mp (by omega)
      exact ⟨[], by simp [hsub]⟩
  | cons x xs ih =>
    rw [containsSub, Bool.or_eq_true, startsWithLit_iff, ih]
    constructor
    · rintro (⟨r, hr⟩ | ⟨l, r, hlr⟩)
      · exact ⟨[], r, by simpa using hr⟩
      · exact ⟨x :: l, r, by simp [hlr]⟩
    · rintro ⟨l, r, hlr⟩
      cases l with
      | nil => exact Or.inl ⟨r, by simpa using hlr⟩
      | cons y l' =>
        rcases List.cons.injEq .. ▸ hlr with ⟨hxy, htl⟩
        exact Or.inr ⟨l', r, htl⟩

theorem dropLit_eq : ∀ lit s r, dropLit lit s = some r → s = lit ++ r := by
  intro lit
  induction lit with
  | nil =>
    intro s r h
    simp [dropLit] at h
    simp [h]
  | cons c cs ih =>
    intro s r h
    cases s with
    | nil => exact absurd h (by simp [dropLit])
    | cons x xs =>
      by_cases hx : x = c
      · subst hx
        rw [dropLit, if_pos rfl] at h
        simpa using ih xs r h
      · rw [dropLit, if_neg hx] at h
        exact absurd h (by simp)

theorem spanNonSlash_append (l : List Char) :
    (spanNonSlash l).1 ++ (spanNonSlash l).2 = l := by
  induction l with
  | nil => rfl
  | cons x xs ih =>
    by_cases hx : x = '/'
    · simp [spanNonSlash, hx]
    · simp [spanNonSlash, hx, ih]

theorem matchPoolAt_contains {s : List Char}
    {t : List Char × List Char × List Char} (h : matchPoolAt s = some t) :
    containsSub "instanceGroupManagers".data s = true := by
  unfold matchPoolAt at h
  split at h
  · exact absurd h (by simp)
  rename_i rest hz
  split at h
  · exact absurd h (by simp)
  rename_i he
  split at h
  · exact absurd h (by simp)
  rename_i rest2 h2
  split at h
  · exact absurd h (by simp)
  rename_i rest3 hg
  have hs : s = "zones/".data ++ rest := dropLit_eq _ _ _ hz
  have h2' : (spanNonSlash rest).2 = '/' :: rest2 := by
    simpa using dropLit_eq _ _ _ h2
  have hrest : (spanNonSlash rest).1 ++ '/' :: rest2 = rest := by
    rw [← h2']
    exact spanNonSlash_append rest
  have hrest2 : rest2 = "instanceGroupManagers/".data ++ rest3 :=
    dropLit_eq _ _ _ hg
  have hdec : ("instanceGroupManagers/").data =
      ("instanceGroupManagers").data ++ ['/'] := by decide
  refine (containsSub_iff _ s).mpr
    ⟨"zones/".data ++ (spanNonSlash rest).1 ++ ['/'], '/' :: rest3, ?_⟩
  rw [hs]
  conv_lhs => rw [← hrest]
  rw [hrest2, hdec]
  simp

theorem findPool_eq_none {u : List Char}
    (h : containsSub "instanceGroupManagers".data u = false) :
    findPool u = none := by
  induction u with
  | nil => rfl
  | cons x xs ih =>
    rw [containsSub, Bool.or_eq_false_iff] at h
    rw [findPool]
    cases hm : matchPoolAt (x :: xs) with
    | some t =>
      have hc := matchPoolAt_contains hm
      rw [containsSub, Bool.or_eq_false_iff.mpr h] at hc
      exact absurd hc (by simp)
    | none => exact ih h.2

/-- The instance-group URL used as the worked example. -/
def exampleIGMUrl : List Char :=
  "https://www.googleapis.com/compute/v1/projects/p/zones/us-central1-a/instanceGroupManagers/gke-mycluster-pool-90fcb815-grp".data

/-- C3: matching the example URL against the pool pattern succeeds,
extracting zone `us-central1-a`, name `gke-mycluster-pool-90fcb815-grp`
and the 8-hex-character unique hash `90fcb815`; and every URL that lacks
the `instanceGroupManagers` segment fails to match (the parse error case).
-/
theorem poolRe_parse_spec (u : List Char)
    (h : containsSub "instanceGroupManagers".data u = false) :
    findPool exampleIGMUrl =
      some ("us-central1-a".data,
        "gke-mycluster-pool-90fcb815-grp".data, "90fcb815".data) ∧
    findPool u = none :=
  ⟨by decide, findPool_eq_none h⟩

theorem poolRe_parse_spec_witness :
    containsSub "instanceGroupManagers".data
      "https://www.googleapis.com/compute/v1/projects/p/zones/us-central1-a/instanceGroups/gke-mycluster-pool-90fcb815-grp".data = false ∧
    (findPool exampleIGMUrl =
      some ("us-central1-a".data,
        "gke-mycluster-pool-90fcb815-grp".data, "90fcb815".data) ∧
    findPool
      "https://www.googleapis.com/compute/v1/projects/p/zones/us-central1-a/instanceGroups/gke-mycluster-pool-90fcb815-grp".data = none) :=
  ⟨by decide, poolRe_parse_spec _ (by decide)⟩

/-- C10: inside brackets `|` is an ordinary character, so the class
`[e|3]` of `poolRe` accepts the literal pipe: a URL whose manager name
begins with `gk|-` and otherwise fits the pattern (8-hex hash, `-grp`
suffix) parses successfully. -/
theorem poolRe_pipe_class :
    poolPrefixClass '|' = true ∧
    findPool
      "https://www.googleapis.com/compute/v1/projects/p/zones/z1/instanceGroupManagers/gk|-pool-90fcb815-grp".data =
      some ("z1".data, "gk|-pool-90fcb815-grp".data, "90fcb815".data) := by
  constructor
  · rfl
  · decide

/-- The constant `e2eAllow` from `deployer.go`: the fixed firewall
allowed-ports specification. -/
def e2eAllow : String :=
  "tcp:22,tcp:80,tcp:8080,tcp:30000-32767,udp:30000-32767"

/-- The constant `defaultImage` from `deployer.go`. -/
def defaultImage : String := "cos"

/-- The constant `gceStockoutErrorPattern` from `deployer.go`: the default
retryable-error regex. -/
def gceStockoutErrorPattern : String :=
  ".*does not have enough resources available to fulfill.*"

/-- The struct `gkeNodePool` from `deployer.go` (fields `Nodes`,
`MachineType`). -/
structure gkeNodePool where
  Nodes : Nat
  MachineType : String

/-- Variable `defaultNodePool` from `deployer.go`: 3 nodes, `n1-standard-2`. -/
def defaultNodePool : gkeNodePool := ⟨3, "n1-standard-2"⟩

/-- Variable `defaultWindowsNodePool` from `deployer.go`: 1 node, `n1-standard-2`. -/
def defaultWindowsNodePool : gkeNodePool := ⟨1, "n1-standard-2"⟩

/-- The fields of `options.UpOptions` that the constructor `New` assigns
from values determined inside `deployer.go`. (The Boskos location,
resource type, timeout and heartbeat-interval defaults and the Windows
image type come from constants defined outside the provided file and are
not modelled.) Fields in the order of the Go literal in `New`. -/
structure UpOptions where
  NumClusters : Nat
  NumNodes : Nat
  MachineType : String
  ImageType : String
  WindowsNumNodes : Nat
  WindowsMachineType : String
  Version : String
  GCPSSHKeyIgnored : Bool
  BoskosProjectsRequested : Nat
  RetryableErrorPatterns : List String

/-- The `UpOptions` literal built by `New` in `deployer.go`:

```go
UpOptions: &options.UpOptions{
    NumClusters:        1,
    NumNodes:           defaultNodePool.Nodes,
    MachineType:        defaultNodePool.MachineType,
    ImageType:          defaultImage,
    WindowsNumNodes:    defaultWindowsNodePool.Nodes,
    WindowsMachineType: defaultWindowsNodePool.MachineType,
    ...
    Version:          "",
    GCPSSHKeyIgnored: true,
    ...
    BoskosProjectsRequested:        1,
    RetryableErrorPatterns: []string{gceStockoutErrorPattern},
},
```
-/
def NewUpOptions : UpOptions :=
  ⟨1, defaultNodePool.Nodes, defaultNodePool.MachineType, defaultImage,
    defaultWindowsNodePool.Nodes, defaultWindowsNodePool.MachineType,
    "", true, 1, [gceStockoutErrorPattern]⟩

/-- The literal between the two `.*` of `gceStockoutErrorPattern`. -/
def stockoutPhrase : List Char :=
  "does not have enough resources available to fulfill".data

/-- Modelled from the spec: `ErrorClassifier.isRetryable` — the code that
matches a failure's text against each compiled retryable pattern is not
part of the provided source file (only the pattern constant
`gceStockoutErrorPattern` and the default pattern list set by `New` are).
Per the spec it is true iff the text matches any configured pattern, with
substring/regex search. A pattern of the form `.*P.*` (`P` a
newline-free literal) matches under Go's unanchored `MatchString` exactly
when `P` occurs as a contiguous substring of the text, which is what
`containsSub` decides; each pattern is represented by its literal `P`. -/
def isRetryable (patternPhrases : List (List Char))
    (errText : List Char) : Bool :=
  patternPhrases.any (fun p => containsSub p errText)

/-- Classifier `isRetryable` under the default pattern set of `New`, whose single
pattern is `gceStockoutErrorPattern` = `.*` ++ `stockoutPhrase` ++ `.*`. -/
def isRetryableDefault (errText : List Char) : Bool :=
  isRetryable [stockoutPhrase] errText

/-- C5: `New`'s default retryable-pattern set is exactly the one-element
list holding the capacity-stockout pattern; that pattern is the stockout
phrase wrapped in `.*` on both sides; and under the default set an error
text is classified retryable precisely when it contains the stockout
phrase as a substring — substring search, not full-string equality —
and is classified not retryable when it does not. -/
theorem retryable_default_spec :
    NewUpOptions.RetryableErrorPatterns = [gceStockoutErrorPattern] ∧
    gceStockoutErrorPattern.data = ".*".data ++ stockoutPhrase ++ ".*".data ∧
    (∀ s, isRetryableDefault s = true ↔ ∃ l r, s = l ++ stockoutPhrase ++ r) := by
  refine ⟨rfl, by decide, ?_⟩
  intro s
  have he : isRetryableDefault s = containsSub stockoutPhrase s := by
    simp [isRetryableDefault, isRetryable]
  rw [he]
  exact containsSub_iff _ s

/-- C7: the deployer built by `New` carries the documented pool defaults:
3 nodes of `n1-standard-2` for the default Linux pool, 1 node for the
default Windows pool, `NumClusters` 1, node counts and machine types
copied from the two default pools, and one Boskos project requested. -/
theorem New_defaults :
    defaultNodePool.Nodes = 3 ∧
    defaultNodePool.MachineType = "n1-standard-2" ∧
    defaultWindowsNodePool.Nodes = 1 ∧
    NewUpOptions.NumClusters = 1 ∧
    NewUpOptions.NumNodes = defaultNodePool.Nodes ∧
    NewUpOptions.MachineType = defaultNodePool.MachineType ∧
    NewUpOptions.WindowsNumNodes = defaultWindowsNodePool.Nodes ∧
    NewUpOptions.WindowsMachineType = defaultWindowsNodePool.MachineType ∧
    NewUpOptions.BoskosProjectsRequested = 1 :=
  ⟨rfl, rfl, rfl, rfl, rfl, rfl, rfl, rfl, rfl⟩

/-- C8: the fixed firewall allowed-ports specification is exactly the
comma-joined list of the five port specs
`tcp:22,tcp:80,tcp:8080,tcp:30000-32767,udp:30000-32767`. -/
theorem e2eAllow_spec :
    e2eAllow = "tcp:22,tcp:80,tcp:8080,tcp:30000-32767,udp:30000-32767" ∧
    e2eAllow = String.intercalate ","
      ["tcp:22", "tcp:80", "tcp:8080", "tcp:30000-32767",
        "udp:30000-32767"] := by
  exact ⟨rfl, by decide⟩

/-- Modelled from the spec: the per-cluster states of the
ProvisioningOrchestrator (§4.4). The orchestration loop that drives the
`retryCount` and `totalTryCount` counters of the `Deployer` struct is not
part of the provided source file; only the counters themselves are.
`attempting i` is the state in which `retryCount = i` attempts have been
consumed and attempt `i` is in flight. -/
inductive Phase where
  | attempting (retryCount : Nat)
  | succeeded
  | exhausted
  deriving DecidableEq

/-- The classification of one cluster-creation attempt's result. -/
inductive Outcome where
  | success
  | retryableFailure
  | fatalFailure
  deriving DecidableEq

/-- Modelled from the spec: one transition of the orchestrator (§4.4):
on success go to `succeeded`; on a retryable failure, if
`attemptIndex + 1 < totalTryCount` and an alternate location exists,
increment the attempt index, otherwise go to `exhausted`; a non-retryable
failure goes to `exhausted`; `succeeded` and `exhausted` are terminal. -/
def step (totalTryCount numLocations : Nat) :
    Phase → Outcome → Phase
  | Phase.attempting _, Outcome.success => Phase.succeeded
  | Phase.attempting i, Outcome.retryableFailure =>
    if i + 1 < totalTryCount ∧ i + 1 < numLocations then
      Phase.attempting (i + 1)
    else Phase.exhausted
  | Phase.attempting _, Outcome.fatalFailure => Phase.exhausted
  | Phase.succeeded, _ => Phase.succeeded
  | Phase.exhausted, _ => Phase.exhausted

/-- Modelled from the spec: a whole orchestration run for one cluster,
starting at attempt index 0, fed the classified outcome of each attempt. -/
def run (totalTryCount numLocations : Nat) (outcomes : List Outcome) :
    Phase :=
  outcomes.foldl (step totalTryCount numLocations) (Phase.attempting 0)

/-- The retry counter carried by a phase. -/
def phaseRetryCount : Phase → Nat
  | Phase.attempting i => i
  | _ => 0

theorem step_retryCount_le (total numLoc : Nat) (p : Phase) (o : Outcome)
    (h : phaseRetryCount p ≤ total) :
    phaseRetryCount (step total numLoc p o) ≤ total := by
  cases p with
  | attempting i =>
    cases o with
    | success => simp [step, phaseRetryCount]
    | retryableFailure =>
      rw [step]
      split
      · rename_i hc
        simpa [phaseRetryCount] using Nat.le_of_lt hc.1
      · simp [phaseRetryCount]
    | fatalFailure => simp [step, phaseRetryCount]
  | succeeded => simp [step, phaseRetryCount]
  | exhausted => simp [step, phaseRetryCount]

theorem foldl_step_retryCount_le (total numLoc : Nat) (os : List Outcome) :
    ∀ p, phaseRetryCount p ≤ total →
      phaseRetryCount (os.foldl (step total numLoc) p) ≤ total := by
  induction os with
  | nil => intro p h; exact h
  | cons o os ih =>
    intro p h
    exact ih _ (step_retryCount_le total numLoc p o h)

theorem foldl_step_exhausted (total numLoc : Nat) (os : List Outcome) :
    os.foldl (step total numLoc) Phase.exhausted = Phase.exhausted := by
  induction os with
  | nil => rfl
  | cons o os ih =>
    rw [List.foldl_cons]
    cases o <;> exact ih

/-- C6: along every orchestration run the consumed retry count never
exceeds `totalTryCount` (whatever state the run is in), and `exhausted` is
absorbing: once the budget is exhausted no outcome list makes a further
location attempt — the machine stays in the fatal `exhausted` state. -/
theorem retryCount_le_totalTryCount (total numLoc : Nat)
    (os : List Outcome) (i : Nat)
    (h : run total numLoc os = Phase.attempting i) :
    i ≤ total ∧
    os.foldl (step total numLoc) Phase.exhausted = Phase.exhausted := by
  constructor
  · have hb := foldl_step_retryCount_le total numLoc os
      (Phase.attempting 0) (Nat.zero_le total)
    rw [run] at h
    rw [h] at hb
    exact hb
  · exact foldl_step_exhausted total numLoc os

theorem retryCount_le_totalTryCount_witness :
    (1 : Nat) ≤ 3 ∧
    [Outcome.retryableFailure].foldl (step 3 3) Phase.exhausted =
      Phase.exhausted :=
  retryCount_le_totalTryCount 3 3 [Outcome.retryableFailure] 1 (by decide)

end GkeDeployer
